import Mathlib

set_option maxHeartbeats 1000000
set_option maxRecDepth 8000

/-!
Shallow embedding of `src/disassemble_z80.py` (class `Z80Disassembler`).

Conventions used throughout this file:
* the input image `data` is a `List Nat` of byte values (Python `bytes`,
  entries in `0..255`);
* the mutable field `self.pos` is threaded explicitly as a `Nat` cursor,
  each successful read advancing it by the number of bytes consumed;
* `self.start_addr` (called `base` here) and every computed address are
  `Int`, because Python integers are unbounded and signed and a relative
  branch target `addr + 2 + offset` can be negative;
* `self.labels` is a Python dict whose stored value is always
  `format_addr` of its key (see `get_label`), so it is represented by its
  list of keys (`List Int`, insertion ordered);
* a Python runtime exception (formatting `None` with `f"...{x:02X}"`, or
  comparing `None > 127`) is modelled as the result `none`.
-/

/-- One digit of Python `f"{n:X}"`: `0-9` then uppercase `A-F`. -/
def hexDigitChar (n : Nat) : Char :=
  if n < 10 then Char.ofNat (48 + n) else Char.ofNat (55 + n)

/-- Fuelled most-significant-first hex digit accumulator (mirrors the
repeated divide-by-16 that Python's `%X` conversion performs). -/
def toHexCore : Nat → Nat → List Char → List Char
  | 0, _, ds => ds
  | fuel + 1, n, ds =>
    let d := hexDigitChar (n % 16)
    if n / 16 = 0 then d :: ds else toHexCore fuel (n / 16) (d :: ds)

/-- The uppercase hex digits of `n` (Python `f"{n:X}"`); `0` gives `"0"`. -/
def natHexDigits (n : Nat) : List Char := toHexCore (n + 1) n []

/-- Zero-pad a digit string on the left to width `w` (Python `0w` fill). -/
def padZeroes (w : Nat) (ds : List Char) : List Char :=
  List.replicate (w - ds.length) '0' ++ ds

/-- Python `f"{n:0wX}"` for a nonnegative value. -/
def pyHexNat (w n : Nat) : String := ⟨padZeroes w (natHexDigits n)⟩

/-- Python `f"{i:0wX}"` for an arbitrary int: a negative value is rendered
as a `-` sign followed by the digits of the absolute value, the sign
counting toward the field width, exactly as CPython formats it. -/
def pyHexInt (w : Nat) (i : Int) : String :=
  if i < 0 then ⟨'-' :: padZeroes (w - 1) (natHexDigits i.natAbs)⟩
  else pyHexNat w i.toNat

/-- `read_byte` (line 16): `None` once the cursor is at or past the end,
otherwise the byte under the cursor.  The cursor advance (`self.pos += 1`)
is written explicitly at each call site below. -/
def read_byte (data : List Nat) (pos : Nat) : Option Nat :=
  if pos < data.length then some (data.getD pos 0) else none

/-- `read_word` (line 28): `None` unless two bytes are available, otherwise
the little-endian word `byte1 | (byte2 << 8)`; advances the cursor by 2. -/
def read_word (data : List Nat) (pos : Nat) : Option Nat :=
  if pos + 1 < data.length then
    some ((data.getD pos 0) ||| ((data.getD (pos + 1) 0) <<< 8))
  else none

/-- `format_addr` (line 36): `f"L{addr:04X}"`. -/
def format_addr (addr : Int) : String := "L" ++ pyHexInt 4 addr

/-- `get_label` (line 39): registers `addr` in the label dict if absent and
returns its name.  The stored dict value is always `format_addr addr`, so
only the key set is carried; the returned pair is (name, updated keys). -/
def get_label (labels : List Int) (addr : Int) : String × List Int :=
  if addr ∈ labels then (format_addr addr, labels)
  else (format_addr addr, labels ++ [addr])

/-- `REG_8` (line 45). -/
def REG_8 : List String := ["B", "C", "D", "E", "H", "L", "(HL)", "A"]

/-- Result of one `disassemble_instruction` call that did not raise:
the returned `(inst, size)` pair together with the cursor and label-dict
state after the call.  `inst = none` models Python's `(None, 0)` return. -/
structure StepResult where
  inst : Option String
  size : Nat
  pos : Nat
  labels : List Int
  deriving DecidableEq

/-- Build the usual successful return `(text, size)` plus resulting state. -/
def mkInstr (t : String) (sz : Nat) (p : Nat) (ls : List Int) :
    Option StepResult :=
  some ⟨some t, sz, p, ls⟩

/-- An opcode at `pos` followed by one immediate byte, rendered
`pre ++ f"{byte:02X}" ++ post`; a missing byte is the `f"...{None:02X}"`
crash (lines 85-87 and similar). -/
def imm8Op (data : List Nat) (pos : Nat) (labels : List Int)
    (pre post : String) : Option StepResult :=
  match read_byte data (pos + 1) with
  | none => none
  | some b => mkInstr (pre ++ pyHexNat 2 b ++ post) 2 (pos + 2) labels

/-- An opcode at `pos` followed by an immediate little-endian word,
rendered `pre ++ f"{word:04X}" ++ post` (lines 74-76 and similar). -/
def imm16Op (data : List Nat) (pos : Nat) (labels : List Int)
    (pre post : String) : Option StepResult :=
  match read_word data (pos + 1) with
  | none => none
  | some w => mkInstr (pre ++ pyHexNat 4 w ++ post) 3 (pos + 3) labels

/-- An absolute jump/call: the word operand is resolved through
`get_label` (lines 200-205 and similar). -/
def jumpWordOp (data : List Nat) (pos : Nat) (labels : List Int)
    (pre : String) : Option StepResult :=
  match read_word data (pos + 1) with
  | none => none
  | some w =>
    let g := get_label labels (w : Int)
    mkInstr (pre ++ g.1) 3 (pos + 3) g.2

/-- A relative branch (DJNZ/JR, lines 109-114): the displacement byte is
sign-extended (`offset -= 256` when above 127) and the target
`addr + 2 + offset` is resolved through `get_label`. -/
def relJumpOp (data : List Nat) (base : Int) (pos : Nat) (labels : List Int)
    (pre : String) : Option StepResult :=
  match read_byte data (pos + 1) with
  | none => none
  | some off =>
    let offI : Int := if 127 < off then (off : Int) - 256 else (off : Int)
    let g := get_label labels (base + (pos : Int) + 2 + offI)
    mkInstr (pre ++ g.1) 2 (pos + 2) g.2

/-- The catch-all `return f"DB &{opcode:02X}", 1` of line 358. -/
def rawDataOp (pos : Nat) (labels : List Int) (op : Nat) :
    Option StepResult :=
  mkInstr ( "DB &" ++ pyHexNat 2 op) 1 (pos + 1) labels

/-- The apostrophe character used in the `EX AF,AF'` mnemonic. -/
def apos : String := String.singleton (Char.ofNat 39)

/-- `disassemble_cb_prefix` (line 360): bit operations and shifts.  `pos`
is the position of the `0xCB` byte itself; the sub-opcode is read at
`pos + 1`. -/
def disassemble_cb_prefix (data : List Nat) (pos : Nat)
    (labels : List Int) : Option StepResult :=
  match read_byte data (pos + 1) with
  | none => mkInstr ( "DB &CB") 1 (pos + 1) labels
  | some op2 =>
    let bit_op := (op2 >>> 6) &&& 0x03
    let reg := op2 &&& 0x07
    if bit_op = 0 then
      let ops := ["RLC", "RRC", "RL", "RR", "SLA", "SRA", "SLL", "SRL"]
      let o := (op2 >>> 3) &&& 0x07
      mkInstr (ops.getD o "" ++ " " ++ REG_8.getD reg "") 2 (pos + 2) labels
    else if bit_op = 1 then
      mkInstr ( "BIT " ++ toString ((op2 >>> 3) &&& 0x07) ++ "," ++
        REG_8.getD reg "") 2 (pos + 2) labels
    else if bit_op = 2 then
      mkInstr ( "RES " ++ toString ((op2 >>> 3) &&& 0x07) ++ "," ++
        REG_8.getD reg "") 2 (pos + 2) labels
    else if bit_op = 3 then
      mkInstr ( "SET " ++ toString ((op2 >>> 3) &&& 0x07) ++ "," ++
        REG_8.getD reg "") 2 (pos + 2) labels
    else
      mkInstr ( "DB &CB,&" ++ pyHexNat 2 op2) 2 (pos + 2) labels

/-- `disassemble_ed_prefix` (line 385): the modelled extended opcodes,
everything else falling to the two-byte raw-data return of line 437. -/
def disassemble_ed_prefix (data : List Nat) (pos : Nat)
    (labels : List Int) : Option StepResult :=
  match read_byte data (pos + 1) with
  | none => mkInstr ( "DB &ED") 1 (pos + 1) labels
  | some op2 =>
    if op2 = 0x44 ∨ op2 = 0x4C ∨ op2 = 0x54 ∨ op2 = 0x5C ∨ op2 = 0x64 ∨
        op2 = 0x6C ∨ op2 = 0x74 ∨ op2 = 0x7C then
      mkInstr ( "NEG") 2 (pos + 2) labels
    else if op2 = 0x46 ∨ op2 = 0x4E ∨ op2 = 0x56 ∨ op2 = 0x5E ∨
        op2 = 0x66 ∨ op2 = 0x6E ∨ op2 = 0x76 ∨ op2 = 0x7E then
      mkInstr ( "IM 0") 2 (pos + 2) labels
    else
      match op2 with
      | 0x57 => mkInstr ( "LD A,I") 2 (pos + 2) labels
      | 0x5F => mkInstr ( "LD A,R") 2 (pos + 2) labels
      | 0x67 => mkInstr ( "RRD") 2 (pos + 2) labels
      | 0x6F => mkInstr ( "RLD") 2 (pos + 2) labels
      | 0xA0 => mkInstr ( "LDI") 2 (pos + 2) labels
      | 0xA1 => mkInstr ( "CPI") 2 (pos + 2) labels
      | 0xA2 => mkInstr ( "INI") 2 (pos + 2) labels
      | 0xA3 => mkInstr ( "OUTI") 2 (pos + 2) labels
      | 0xA8 => mkInstr ( "LDD") 2 (pos + 2) labels
      | 0xA9 => mkInstr ( "CPD") 2 (pos + 2) labels
      | 0xAA => mkInstr ( "IND") 2 (pos + 2) labels
      | 0xAB => mkInstr ( "OUTD") 2 (pos + 2) labels
      | 0xB0 => mkInstr ( "LDIR") 2 (pos + 2) labels
      | 0xB1 => mkInstr ( "CPIR") 2 (pos + 2) labels
      | 0xB2 => mkInstr ( "INIR") 2 (pos + 2) labels
      | 0xB3 => mkInstr ( "OTIR") 2 (pos + 2) labels
      | 0xB8 => mkInstr ( "LDDR") 2 (pos + 2) labels
      | 0xB9 => mkInstr ( "CPDR") 2 (pos + 2) labels
      | 0xBA => mkInstr ( "INDR") 2 (pos + 2) labels
      | 0xBB => mkInstr ( "OTDR") 2 (pos + 2) labels
      | _ => mkInstr ( "DB &ED,&" ++ pyHexNat 2 op2) 2 (pos + 2) labels

/-- `disassemble_dd_prefix` (line 439): the handful of modelled IX
opcodes, the rest the two-byte raw-data return of line 462.  For
`DD 36` both the immediate byte and the displacement are read; a missing
one is the `None > 127` / `f"{None:02X}"` crash. -/
def disassemble_dd_prefix (data : List Nat) (pos : Nat)
    (labels : List Int) : Option StepResult :=
  match read_byte data (pos + 1) with
  | none => mkInstr ( "DB &DD") 1 (pos + 1) labels
  | some op2 =>
    match op2 with
    | 0x21 =>
      match read_word data (pos + 2) with
      | none => none
      | some w => mkInstr ( "LD IX,&" ++ pyHexNat 4 w) 4 (pos + 4) labels
    | 0xE1 => mkInstr ( "POP IX") 2 (pos + 2) labels
    | 0xE5 => mkInstr ( "PUSH IX") 2 (pos + 2) labels
    | 0xE9 => mkInstr ( "JP (IX)") 2 (pos + 2) labels
    | 0x36 =>
      match read_byte data (pos + 2) with
      | none => none
      | some b =>
        match read_byte data (pos + 3) with
        | none => none
        | some off =>
          let offI : Int :=
            if 127 < off then (off : Int) - 256 else (off : Int)
          mkInstr ( "LD (IX+&" ++ pyHexInt 2 offI ++ "),&" ++
            pyHexNat 2 b) 4 (pos + 4) labels
    | _ => mkInstr ( "DB &DD,&" ++ pyHexNat 2 op2) 2 (pos + 2) labels

/-- `disassemble_fd_prefix` (line 464): like the IX handler but without
the displacement-store opcode. -/
def disassemble_fd_prefix (data : List Nat) (pos : Nat)
    (labels : List Int) : Option StepResult :=
  match read_byte data (pos + 1) with
  | none => mkInstr ( "DB &FD") 1 (pos + 1) labels
  | some op2 =>
    match op2 with
    | 0x21 =>
      match read_word data (pos + 2) with
      | none => none
      | some w => mkInstr ( "LD IY,&" ++ pyHexNat 4 w) 4 (pos + 4) labels
    | 0xE1 => mkInstr ( "POP IY") 2 (pos + 2) labels
    | 0xE5 => mkInstr ( "PUSH IY") 2 (pos + 2) labels
    | 0xE9 => mkInstr ( "JP (IY)") 2 (pos + 2) labels
    | _ => mkInstr ( "DB &FD,&" ++ pyHexNat 2 op2) 2 (pos + 2) labels

/-- `disassemble_instruction` (line 50).  The guard of lines 51-52 returns
`(None, 0)` without moving the cursor; otherwise the opcode byte is read,
the four prefix bytes dispatch to their handlers (lines 62-69), and the
main if/elif chain of lines 72-358 follows, every unlisted value falling
to the raw-data return of line 358.  Note that, as in the source, opcodes
`0x28`-`0x3F` are not listed anywhere and therefore fall to raw data, and
the `pass` placeholders for `0xCB/0xDD/0xED/0xFD` inside the `0xC0`-`0xFF`
block are unreachable because the prefix dispatch comes first. -/
def disassemble_instruction (data : List Nat) (base : Int) (pos : Nat)
    (labels : List Int) : Option StepResult :=
  if pos < data.length then
    match data.getD pos 0 with
    | 0xCB => disassemble_cb_prefix data pos labels
    | 0xED => disassemble_ed_prefix data pos labels
    | 0xDD => disassemble_dd_prefix data pos labels
    | 0xFD => disassemble_fd_prefix data pos labels
    | 0x00 => mkInstr ( "NOP") 1 (pos + 1) labels
    | 0x01 => imm16Op data pos labels "LD BC,&" ""
    | 0x02 => mkInstr ( "LD (BC),A") 1 (pos + 1) labels
    | 0x03 => mkInstr ( "INC BC") 1 (pos + 1) labels
    | 0x04 => mkInstr ( "INC B") 1 (pos + 1) labels
    | 0x05 => mkInstr ( "DEC B") 1 (pos + 1) labels
    | 0x06 => imm8Op data pos labels "LD B,&" ""
    | 0x07 => mkInstr ( "RLCA") 1 (pos + 1) labels
    | 0x08 => mkInstr ( "EX AF,AF" ++ apos) 1 (pos + 1) labels
    | 0x09 => mkInstr ( "ADD HL,BC") 1 (pos + 1) labels
    | 0x0A => mkInstr ( "LD A,(BC)") 1 (pos + 1) labels
    | 0x0B => mkInstr ( "DEC BC") 1 (pos + 1) labels
    | 0x0C => mkInstr ( "INC C") 1 (pos + 1) labels
    | 0x0D => mkInstr ( "DEC C") 1 (pos + 1) labels
    | 0x0E => imm8Op data pos labels "LD C,&" ""
    | 0x0F => mkInstr ( "RRCA") 1 (pos + 1) labels
    | 0x10 => relJumpOp data base pos labels "DJNZ "
    | 0x11 => imm16Op data pos labels "LD DE,&" ""
    | 0x12 => mkInstr ( "LD (DE),A") 1 (pos + 1) labels
    | 0x13 => mkInstr ( "INC DE") 1 (pos + 1) labels
    | 0x14 => mkInstr ( "INC D") 1 (pos + 1) labels
    | 0x15 => mkInstr ( "DEC D") 1 (pos + 1) labels
    | 0x16 => imm8Op data pos labels "LD D,&" ""
    | 0x17 => mkInstr ( "RLA") 1 (pos + 1) labels
    | 0x18 => relJumpOp data base pos labels "JR "
    | 0x19 => mkInstr ( "ADD HL,DE") 1 (pos + 1) labels
    | 0x1A => mkInstr ( "LD A,(DE)") 1 (pos + 1) labels
    | 0x1B => mkInstr ( "DEC DE") 1 (pos + 1) labels
    | 0x1C => mkInstr ( "INC E") 1 (pos + 1) labels
    | 0x1D => mkInstr ( "DEC E") 1 (pos + 1) labels
    | 0x1E => imm8Op data pos labels "LD E,&" ""
    | 0x1F => mkInstr ( "RRA") 1 (pos + 1) labels
    | 0x20 => relJumpOp data base pos labels "JR NZ,"
    | 0x21 => imm16Op data pos labels "LD HL,&" ""
    | 0x22 => imm16Op data pos labels "LD (&" "),HL"
    | 0x23 => mkInstr ( "INC HL") 1 (pos + 1) labels
    | 0x24 => mkInstr ( "INC H") 1 (pos + 1) labels
    | 0x25 => mkInstr ( "DEC H") 1 (pos + 1) labels
    | 0x26 => imm8Op data pos labels "LD H,&" ""
    | 0x27 => mkInstr ( "DAA") 1 (pos + 1) labels
    | op =>
      if 0x40 ≤ op ∧ op ≤ 0x7F then
        let src := (op >>> 3) &&& 0x07
        let dst := op &&& 0x07
        if op = 0x76 then mkInstr ( "HALT") 1 (pos + 1) labels
        else
          mkInstr ( "LD " ++ REG_8.getD dst "" ++ "," ++ REG_8.getD src "")
            1 (pos + 1) labels
      else if 0x80 ≤ op ∧ op ≤ 0xBF then
        let o := op >>> 3
        let reg := op &&& 0x07
        let ops := ["ADD", "ADC", "SUB", "SBC", "AND", "XOR", "OR", "CP"]
        mkInstr (ops.getD ((o - 0x10) &&& 0x07) "" ++ " A," ++
          REG_8.getD reg "") 1 (pos + 1) labels
      else if 0xC0 ≤ op ∧ op ≤ 0xFF then
        match op with
        | 0xC0 => mkInstr ( "RET NZ") 1 (pos + 1) labels
        | 0xC1 => mkInstr ( "POP BC") 1 (pos + 1) labels
        | 0xC2 => jumpWordOp data pos labels "JP NZ,"
        | 0xC3 => jumpWordOp data pos labels "JP "
        | 0xC4 => jumpWordOp data pos labels "CALL NZ,"
        | 0xC5 => mkInstr ( "PUSH BC") 1 (pos + 1) labels
        | 0xC6 => imm8Op data pos labels "ADD A,&" ""
        | 0xC7 => mkInstr ( "RST 0x00") 1 (pos + 1) labels
        | 0xC8 => mkInstr ( "RET Z") 1 (pos + 1) labels
        | 0xC9 => mkInstr ( "RET") 1 (pos + 1) labels
        | 0xCA => jumpWordOp data pos labels "JP Z,"
        | 0xCC => jumpWordOp data pos labels "CALL Z,"
        | 0xCD => jumpWordOp data pos labels "CALL "
        | 0xCE => imm8Op data pos labels "ADC A,&" ""
        | 0xCF => mkInstr ( "RST 0x08") 1 (pos + 1) labels
        | 0xD0 => mkInstr ( "RET NC") 1 (pos + 1) labels
        | 0xD1 => mkInstr ( "POP DE") 1 (pos + 1) labels
        | 0xD2 => jumpWordOp data pos labels "JP NC,"
        | 0xD3 => imm8Op data pos labels "OUT (&" "),A"
        | 0xD4 => jumpWordOp data pos labels "CALL NC,"
        | 0xD5 => mkInstr ( "PUSH DE") 1 (pos + 1) labels
        | 0xD6 => imm8Op data pos labels "SUB &" ""
        | 0xD7 => mkInstr ( "RST 0x10") 1 (pos + 1) labels
        | 0xD8 => mkInstr ( "RET C") 1 (pos + 1) labels
        | 0xD9 => mkInstr ( "EXX") 1 (pos + 1) labels
        | 0xDA => jumpWordOp data pos labels "JP C,"
        | 0xDB => imm8Op data pos labels "IN A,(&" ")"
        | 0xDC => jumpWordOp data pos labels "CALL C,"
        | 0xDE => imm8Op data pos labels "SBC A,&" ""
        | 0xDF => mkInstr ( "RST 0x18") 1 (pos + 1) labels
        | 0xE0 => mkInstr ( "RET PO") 1 (pos + 1) labels
        | 0xE1 => mkInstr ( "POP HL") 1 (pos + 1) labels
        | 0xE2 => jumpWordOp data pos labels "JP PO,"
        | 0xE3 => mkInstr ( "EX (SP),HL") 1 (pos + 1) labels
        | 0xE4 => jumpWordOp data pos labels "CALL PO,"
        | 0xE5 => mkInstr ( "PUSH HL") 1 (pos + 1) labels
        | 0xE6 => imm8Op data pos labels "AND &" ""
        | 0xE7 => mkInstr ( "RST 0x20") 1 (pos + 1) labels
        | 0xE8 => mkInstr ( "RET PE") 1 (pos + 1) labels
        | 0xE9 => mkInstr ( "JP (HL)") 1 (pos + 1) labels
        | 0xEA => jumpWordOp data pos labels "JP PE,"
        | 0xEB => mkInstr ( "EX DE,HL") 1 (pos + 1) labels
        | 0xEC => jumpWordOp data pos labels "CALL PE,"
        | 0xEE => imm8Op data pos labels "XOR &" ""
        | 0xEF => mkInstr ( "RST 0x28") 1 (pos + 1) labels
        | 0xF0 => mkInstr ( "RET P") 1 (pos + 1) labels
        | 0xF1 => mkInstr ( "POP AF") 1 (pos + 1) labels
        | 0xF2 => jumpWordOp data pos labels "JP P,"
        | 0xF3 => mkInstr ( "DI") 1 (pos + 1) labels
        | 0xF4 => jumpWordOp data pos labels "CALL P,"
        | 0xF5 => mkInstr ( "PUSH AF") 1 (pos + 1) labels
        | 0xF6 => imm8Op data pos labels "OR &" ""
        | 0xF7 => mkInstr ( "RST 0x30") 1 (pos + 1) labels
        | 0xF8 => mkInstr ( "RET M") 1 (pos + 1) labels
        | 0xF9 => mkInstr ( "LD SP,HL") 1 (pos + 1) labels
        | 0xFA => jumpWordOp data pos labels "JP M,"
        | 0xFB => mkInstr ( "EI") 1 (pos + 1) labels
        | 0xFC => jumpWordOp data pos labels "CALL M,"
        | 0xFE => imm8Op data pos labels "CP &" ""
        | 0xFF => mkInstr ( "RST 0x38") 1 (pos + 1) labels
        | _ => rawDataOp pos labels op
      else rawDataOp pos labels op
  else some ⟨none, 0, pos, labels⟩

/-- One emitted listing line of `disassemble_all`: the (possibly empty)
label-definition prefix and the instruction text that line 501 appends as
`f"{label_line}{inst}"`, together with the instruction's address and the
`size` that line 491 binds. -/
structure Line where
  addr : Int
  label : String
  inst : String
  size : Nat
  deriving DecidableEq

/-- The `while self.pos < len(self.data)` loop of `disassemble_all`
(lines 489-505, with `max_lines=None` as in `main`).  `fuel` is a bound
on the number of iterations; since every decoded instruction consumes at
least one byte, `data.length + 1` is always enough (see the lemmas
below).  A `none` result is a Python exception escaping the loop. -/
def disassembleLoop (data : List Nat) (base : Int) :
    Nat → Nat → List Int → Option (List Line)
  | 0, _, _ => none
  | fuel + 1, pos, labels =>
    if pos < data.length then
      match disassemble_instruction data base pos labels with
      | none => none
      | some r =>
        match r.inst with
        | none => some []
        | some txt =>
          let addr : Int := base + (pos : Int)
          let labelLine : String :=
            if addr ∈ r.labels ∨ read_byte data r.pos = some 0xCD then
              format_addr addr ++ ":\n"
            else ""
          match disassembleLoop data base fuel r.pos r.labels with
          | none => none
          | some rest => some (⟨addr, labelLine, txt, r.size⟩ :: rest)
    else some []

/-- The structured record of one whole `disassemble_all` run. -/
def disassembleRecords (data : List Nat) (base : Int) :
    Option (List Line) :=
  disassembleLoop data base (data.length + 1) 0 []

/-- The `output` list of strings that `disassemble_all` builds: the
`ORG` directive of line 486 followed by one `f"{label_line}{inst}"`
string per instruction (line 501). -/
def disassembleLines (data : List Nat) (base : Int) :
    Option (List String) :=
  (disassembleRecords data base).map
    (fun rs => ( "ORG &" ++ pyHexInt 4 base ++ "\n") ::
      rs.map (fun l => l.label ++ l.inst))

/-- `disassemble_all` (line 483): the joined text `"\n".join(output)`. -/
def disassemble_all (data : List Nat) (base : Int) : Option String :=
  (disassembleLines data base).map (String.intercalate "\n")

/-- The sixteen characters Python's uppercase hex conversion can emit:
a decimal digit or an uppercase letter between `A` and `F`. -/
def isHexDigit (c : Char) : Bool :=
  ('0' ≤ c && c ≤ '9') || ('A' ≤ c && c ≤ 'F')

/-- Whether an instruction text is a raw-data (`DB ...`) pseudo
instruction: every modelled mnemonic starts with a different letter pair. -/
def hasDBStart (t : String) : Bool :=
  match t.data with
  | 'D' :: 'B' :: _ => true
  | _ => false

/-!
Invariants of one decoding step, used for the byte-coverage theorem:
whenever `disassemble_instruction` returns an instruction, the cursor
lands exactly `size` bytes further on, at least one byte is consumed,
and the cursor never passes the end of the image.
-/

/-- The decoded-step invariant. -/
def StepOk (data : List Nat) (pos : Nat) (r : StepResult) : Prop :=
  (∃ t, r.inst = some t) ∧ r.pos = pos + r.size ∧ 1 ≤ r.size ∧
    r.pos ≤ data.length

theorem stepOk_mk {data : List Nat} {pos sz : Nat} {t : String}
    {ls : List Int} (h1 : 1 ≤ sz) (h2 : pos + sz ≤ data.length) :
    StepOk data pos ⟨some t, sz, pos + sz, ls⟩ :=
  ⟨⟨t, rfl⟩, rfl, h1, h2⟩

theorem read_byte_lt {data : List Nat} {pos b : Nat}
    (h : read_byte data pos = some b) : pos < data.length := by
  by_cases hp : pos < data.length
  · exact hp
  · simp [read_byte, hp] at h

theorem read_word_lt {data : List Nat} {pos w : Nat}
    (h : read_word data pos = some w) : pos + 1 < data.length := by
  by_cases hp : pos + 1 < data.length
  · exact hp
  · simp [read_word, hp] at h

theorem read_byte_eq_some {data : List Nat} {pos b : Nat} :
    read_byte data pos = some b ↔
      pos < data.length ∧ data.getD pos 0 = b := by
  unfold read_byte
  split <;> simp_all

theorem read_word_eq_some {data : List Nat} {pos w : Nat} :
    read_word data pos = some w ↔ pos + 1 < data.length ∧
      (data.getD pos 0) ||| ((data.getD (pos + 1) 0) <<< 8) = w := by
  unfold read_word
  split <;> simp_all

theorem imm8Op_ok {data : List Nat} {pos : Nat} {labels : List Int}
    {pre post : String} {r : StepResult}
    (h : imm8Op data pos labels pre post = some r) : StepOk data pos r := by
  unfold imm8Op at h
  cases hb : read_byte data (pos + 1) with
  | none => rw [hb] at h; exact Option.noConfusion h
  | some b =>
    rw [hb] at h
    have h2 := read_byte_lt hb
    cases h
    exact stepOk_mk (by omega) (by omega)

theorem imm16Op_ok {data : List Nat} {pos : Nat} {labels : List Int}
    {pre post : String} {r : StepResult}
    (h : imm16Op data pos labels pre post = some r) : StepOk data pos r := by
  unfold imm16Op at h
  cases hw : read_word data (pos + 1) with
  | none => rw [hw] at h; exact Option.noConfusion h
  | some w =>
    rw [hw] at h
    have h2 := read_word_lt hw
    cases h
    exact stepOk_mk (by omega) (by omega)

theorem jumpWordOp_ok {data : List Nat} {pos : Nat} {labels : List Int}
    {pre : String} {r : StepResult}
    (h : jumpWordOp data pos labels pre = some r) : StepOk data pos r := by
  unfold jumpWordOp at h
  cases hw : read_word data (pos + 1) with
  | none => rw [hw] at h; exact Option.noConfusion h
  | some w =>
    rw [hw] at h
    have h2 := read_word_lt hw
    cases h
    exact stepOk_mk (by omega) (by omega)

theorem relJumpOp_ok {data : List Nat} {base : Int} {pos : Nat}
    {labels : List Int} {pre : String} {r : StepResult}
    (h : relJumpOp data base pos labels pre = some r) : StepOk data pos r := by
  unfold relJumpOp at h
  cases hb : read_byte data (pos + 1) with
  | none => rw [hb] at h; exact Option.noConfusion h
  | some b =>
    rw [hb] at h
    have h2 := read_byte_lt hb
    cases h
    exact stepOk_mk (by omega) (by omega)

theorem rawDataOp_ok {data : List Nat} {pos : Nat} {labels : List Int}
    {op : Nat} {r : StepResult} (hlen : pos < data.length)
    (h : rawDataOp pos labels op = some r) : StepOk data pos r := by
  unfold rawDataOp at h
  cases h
  exact stepOk_mk (by omega) (by omega)

theorem cbPrefix_ok {data : List Nat} {pos : Nat} {labels : List Int}
    {r : StepResult} (hlen : pos < data.length)
    (h : disassemble_cb_prefix data pos labels = some r) :
    StepOk data pos r := by
  unfold disassemble_cb_prefix at h
  cases hb : read_byte data (pos + 1) with
  | none =>
    rw [hb] at h; cases h
    exact stepOk_mk (by omega) (by omega)
  | some op2 =>
    rw [hb] at h
    have h2 := read_byte_lt hb
    dsimp only at h
    by_cases h0 : (op2 >>> 6) &&& 0x03 = 0
    · rw [if_pos h0] at h; cases h; exact stepOk_mk (by omega) (by omega)
    · rw [if_neg h0] at h
      by_cases h1 : (op2 >>> 6) &&& 0x03 = 1
      · rw [if_pos h1] at h; cases h; exact stepOk_mk (by omega) (by omega)
      · rw [if_neg h1] at h
        by_cases h3 : (op2 >>> 6) &&& 0x03 = 2
        · rw [if_pos h3] at h; cases h; exact stepOk_mk (by omega) (by omega)
        · rw [if_neg h3] at h
          by_cases h4 : (op2 >>> 6) &&& 0x03 = 3
          · rw [if_pos h4] at h; cases h
            exact stepOk_mk (by omega) (by omega)
          · rw [if_neg h4] at h; cases h
            exact stepOk_mk (by omega) (by omega)

theorem edPrefix_ok {data : List Nat} {pos : Nat} {labels : List Int}
    {r : StepResult} (hlen : pos < data.length)
    (h : disassemble_ed_prefix data pos labels = some r) :
    StepOk data pos r := by
  unfold disassemble_ed_prefix at h
  repeat' split at h
  all_goals try simp only [read_byte_eq_some, read_word_eq_some] at *
  all_goals (cases h; exact stepOk_mk (by omega) (by omega))

theorem ddPrefix_ok {data : List Nat} {pos : Nat} {labels : List Int}
    {r : StepResult} (hlen : pos < data.length)
    (h : disassemble_dd_prefix data pos labels = some r) :
    StepOk data pos r := by
  unfold disassemble_dd_prefix at h
  repeat' split at h
  all_goals try exact Option.noConfusion h
  all_goals try simp only [read_byte_eq_some, read_word_eq_some] at *
  all_goals (cases h; exact stepOk_mk (by omega) (by omega))

theorem fdPrefix_ok {data : List Nat} {pos : Nat} {labels : List Int}
    {r : StepResult} (hlen : pos < data.length)
    (h : disassemble_fd_prefix data pos labels = some r) :
    StepOk data pos r := by
  unfold disassemble_fd_prefix at h
  repeat' split at h
  all_goals try exact Option.noConfusion h
  all_goals try simp only [read_byte_eq_some, read_word_eq_some] at *
  all_goals (cases h; exact stepOk_mk (by omega) (by omega))

/-- Soundness of one decoder step: either the end-of-image return of
lines 51-52 (no instruction, cursor unmoved) or a well-formed
instruction obeying `StepOk`. -/
theorem disassemble_instruction_ok {data : List Nat} {base : Int}
    {pos : Nat} {labels : List Int} {r : StepResult}
    (h : disassemble_instruction data base pos labels = some r) :
    (r.inst = none ∧ data.length ≤ pos) ∨ StepOk data pos r := by
  unfold disassemble_instruction at h
  by_cases hlen : pos < data.length
  · rw [if_pos hlen] at h
    right
    repeat' split at h
    all_goals
      first
      | exact cbPrefix_ok hlen h
      | exact edPrefix_ok hlen h
      | exact ddPrefix_ok hlen h
      | exact fdPrefix_ok hlen h
      | exact imm8Op_ok h
      | exact imm16Op_ok h
      | exact jumpWordOp_ok h
      | exact relJumpOp_ok h
      | exact rawDataOp_ok hlen h
      | (cases h; exact stepOk_mk (by omega) (by omega))
  · rw [if_neg hlen] at h
    cases h
    exact Or.inl ⟨rfl, by omega⟩

/-- Byte coverage of the decode loop: a completed run consumes exactly
the bytes from `pos` to the end of the image, the per-line `size` fields
summing to `data.length - pos`. -/
theorem disassembleLoop_sum (data : List Nat) (base : Int) :
    ∀ (fuel pos : Nat) (labels : List Int) (rs : List Line),
      disassembleLoop data base fuel pos labels = some rs →
      (rs.map Line.size).sum = data.length - pos := by
  intro fuel
  induction fuel with
  | zero => intro pos labels rs h; exact Option.noConfusion h
  | succ fuel ih =>
    intro pos labels rs h
    unfold disassembleLoop at h
    by_cases hp : pos < data.length
    · rw [if_pos hp] at h
      cases hstep : disassemble_instruction data base pos labels with
      | none => rw [hstep] at h; exact Option.noConfusion h
      | some r =>
        rw [hstep] at h
        dsimp only at h
        rcases disassemble_instruction_ok hstep with ⟨-, hle⟩ | hok
        · omega
        · obtain ⟨⟨txt, hinst⟩, hpos, hsz, hble⟩ := hok
          rw [hinst] at h
          dsimp only at h
          cases hrec : disassembleLoop data base fuel r.pos r.labels with
          | none => rw [hrec] at h; exact Option.noConfusion h
          | some rest =>
            rw [hrec] at h
            dsimp only at h
            cases h
            have hr := ih r.pos r.labels rest hrec
            simp only [List.map_cons, List.sum_cons]
            omega
    · rw [if_neg hp] at h
      cases h
      simp only [List.map_nil, List.sum_nil]
      omega

/-- A label-definition line followed by a colon and newline is never the
empty string. -/
theorem format_addr_colon_ne (a : Int) : format_addr a ++ ":\n" ≠ "" := by
  intro hc
  have hlen := congrArg String.length hc
  rw [String.length_append] at hlen
  have h2 : (":\n" : String).length = 2 := rfl
  have h0 : ("" : String).length = 0 := rfl
  omega


theorem hexDigitChar_hex : ∀ n : Nat, n < 16 →
    isHexDigit (hexDigitChar n) = true := by decide

theorem toHexCore_hex : ∀ (fuel n : Nat) (ds : List Char),
    (∀ c ∈ ds, isHexDigit c = true) →
    ∀ c ∈ toHexCore fuel n ds, isHexDigit c = true := by
  intro fuel
  induction fuel with
  | zero => intro n ds hds c hc; exact hds c hc
  | succ fuel ih =>
    intro n ds hds c hc
    have hd : ∀ x ∈ hexDigitChar (n % 16) :: ds, isHexDigit x = true := by
      intro x hx
      rcases List.mem_cons.mp hx with rfl | hx
      · exact hexDigitChar_hex _ (Nat.mod_lt _ (by omega))
      · exact hds x hx
    unfold toHexCore at hc
    dsimp only at hc
    split at hc
    · exact hd c hc
    · exact ih (n / 16) _ hd c hc

theorem toHexCore_len : ∀ (fuel k n : Nat) (ds : List Char), 1 ≤ k →
    n < 16 ^ k → (toHexCore fuel n ds).length ≤ ds.length + k := by
  intro fuel
  induction fuel with
  | zero => intro k n ds hk hn; simp [toHexCore]
  | succ fuel ih =>
    intro k n ds hk hn
    unfold toHexCore
    dsimp only
    split
    · simp
      omega
    · rename_i hne
      have hk2 : 2 ≤ k := by
        rcases Nat.lt_or_ge k 2 with hlt | hge
        · exfalso
          have hk1 : k = 1 := by omega
          subst hk1
          rw [pow_one] at hn
          exact hne (Nat.div_eq_of_lt hn)
        · exact hge
      have hpow : 16 ^ (k - 1) * 16 = 16 ^ k := by
        rw [← pow_succ]
        congr 1
        omega
      have hlt : n / 16 < 16 ^ (k - 1) := by
        rw [Nat.div_lt_iff_lt_mul (by norm_num : (0:Nat) < 16), hpow]
        exact hn
      have := ih (k - 1) (n / 16) (hexDigitChar (n % 16) :: ds)
        (by omega) hlt
      simp at this
      omega

theorem natHexDigits_hex (n : Nat) :
    ∀ c ∈ natHexDigits n, isHexDigit c = true :=
  toHexCore_hex _ _ [] (by simp)

theorem natHexDigits_len {n : Nat} (h : n < 65536) :
    (natHexDigits n).length ≤ 4 := by
  have h16 : n < 16 ^ 4 := by norm_num; omega
  have := toHexCore_len (n + 1) 4 n [] (by omega) h16
  simpa using this

/-!
The claims.
-/

/-- Claim C1 (code bug): decoding is claimed never to raise on any byte
sequence, and the empty sequence to yield an empty program.  The empty
image does give the bare `ORG` header, but the one-byte image `0x06`
(`LD B,n` with its immediate byte missing) makes `read_byte` return
`None` and line 87 then formats `None`, raising `TypeError` — modelled
here as the `none` result. -/
theorem c1_truncated_crash :
    disassembleLines [0x06] 0 = none ∧
      disassembleLines ([] : List Nat) 7 = some [ "ORG &0007\n"] := by
  constructor
  · decide
  · decide

/-- Claim C2 (amended): the 2-byte self-loop `DJNZ` image does get its
label line, because `get_label` registers the target during the decode of
the very instruction that line 498 then checks. -/
theorem c2_self_loop_label :
    disassembleLines [0x10, 0xFE] 0 =
      some [ "ORG &0000\n", "L0000:\nDJNZ L0000"] := by decide

/-- Claim C2 (counterexample): a backward reference to an
already-emitted earlier address gets no label line.  In
`[NOP, JR -3]` the `JR` resolves to address 0, but the `NOP` line was
already emitted before the target was registered, so no line of the
output carries a label, and the emitted `JR L0000` references a label
that is never defined. -/
theorem c2_backward_no_label :
    ((disassembleRecords [0x00, 0x18, 0xFD] 0).map
        (fun rs => rs.any (fun l => l.label != ""))) = some false ∧
      disassembleLines [0x00, 0x18, 0xFD] 0 =
        some [ "ORG &0000\n", "NOP", "JR L0000"] := by
  constructor
  · decide
  · decide

/-- Claim C3 (counterexample): label lines are neither necessary nor
sufficient for being a control-transfer target.  In
`[NOP, JR -3, CALL 0x1234]` the address 0 is the resolved target of the
`JR` yet its `NOP` line has no label, while address 1 is no target at
all yet receives a label line merely because the byte following the
`JR` is `0xCD`. -/
theorem c3_label_not_iff_targets :
    disassembleLines [0x00, 0x18, 0xFD, 0xCD, 0x34, 0x12] 0 =
      some [ "ORG &0000\n", "NOP", "L0001:\nJR L0000", "CALL L1234"] := by
  decide

/-- Claim C3 (amended): inversion of one iteration of the emission loop.
A label-definition line precedes an instruction exactly when the
instruction's address is a key of the label dict as updated by its own
decode (so self and forward references only), or the byte after the
instruction is `0xCD` (lines 496-499); when present it is
`format_addr` of the address followed by a colon and newline. -/
theorem c3_label_condition (data : List Nat) (base : Int)
    (fuel pos : Nat) (labels : List Int) (line : Line) (rest : List Line)
    (h : disassembleLoop data base fuel pos labels = some (line :: rest)) :
    ∃ r, disassemble_instruction data base pos labels = some r ∧
      line.addr = base + (pos : Int) ∧
      (line.label ≠ "" ↔
        (line.addr ∈ r.labels ∨ read_byte data r.pos = some 0xCD)) ∧
      (line.label ≠ "" → line.label = format_addr line.addr ++ ":\n") := by
  cases fuel with
  | zero => exact Option.noConfusion h
  | succ fuel =>
    unfold disassembleLoop at h
    by_cases hp : pos < data.length
    · rw [if_pos hp] at h
      cases hstep : disassemble_instruction data base pos labels with
      | none => rw [hstep] at h; exact Option.noConfusion h
      | some r =>
        rw [hstep] at h
        dsimp only at h
        cases hinst : r.inst with
        | none => rw [hinst] at h; dsimp only at h; simp at h
        | some txt =>
          rw [hinst] at h
          dsimp only at h
          cases hrec : disassembleLoop data base fuel r.pos r.labels with
          | none => rw [hrec] at h; exact Option.noConfusion h
          | some rest2 =>
            rw [hrec] at h
            dsimp only at h
            cases h
            refine ⟨r, rfl, rfl, ?_, ?_⟩
            · by_cases hc : base + (pos : Int) ∈ r.labels ∨
                  read_byte data r.pos = some 0xCD
              · dsimp only
                rw [if_pos hc]
                exact iff_of_true (format_addr_colon_ne _) hc
              · dsimp only
                rw [if_neg hc]
                simpa using hc
            · by_cases hc : base + (pos : Int) ∈ r.labels ∨
                  read_byte data r.pos = some 0xCD
              · dsimp only
                rw [if_pos hc]
                intro
                rfl
              · dsimp only
                rw [if_neg hc]
                intro hne
                exact absurd rfl hne
    · rw [if_neg hp] at h
      simp at h

theorem c3_label_condition_witness :
    ∃ r, disassemble_instruction [0x00, 0xCD, 0x34, 0x12] 0 0 [] = some r ∧
      (⟨0, "L0000:\n", "NOP", 1⟩ : Line).addr = 0 + ((0 : Nat) : Int) ∧
      ((⟨0, "L0000:\n", "NOP", 1⟩ : Line).label ≠ "" ↔
        ((⟨0, "L0000:\n", "NOP", 1⟩ : Line).addr ∈ r.labels ∨
          read_byte [0x00, 0xCD, 0x34, 0x12] r.pos = some 0xCD)) ∧
      ((⟨0, "L0000:\n", "NOP", 1⟩ : Line).label ≠ "" →
        (⟨0, "L0000:\n", "NOP", 1⟩ : Line).label =
          format_addr (⟨0, "L0000:\n", "NOP", 1⟩ : Line).addr ++ ":\n") :=
  c3_label_condition [0x00, 0xCD, 0x34, 0x12] 0 5 0 []
    ⟨0, "L0000:\n", "NOP", 1⟩ [⟨1, "", "CALL L1234", 3⟩] (by decide)

/-- Claim C4 (counterexample): opcode `0x3E` (`LD A,n` on a real Z80) is
not modelled — with its operand byte available it decodes to the raw-data
fallback `DB &3E` of line 358, not to a mnemonic instruction. -/
theorem c4_opcode_3E_raw :
    ((disassemble_instruction [0x3E, 0x05] 0 0 []).bind
      (fun r => r.inst)) = some "DB &3E" := by decide

/-- Claim C4 (amended): the base table yields a modelled (non raw-data)
instruction for every no-prefix opcode in `0x00`-`0x27` and
`0x40`-`0xFF` other than the `0xED`/`0xDD`/`0xFD` prefix bytes (whose
sub-tables are partial); opcodes `0x28`-`0x3F` fall to the raw-data
fallback. -/
theorem c4_base_table_coverage : ∀ op : Nat, op < 256 →
    ((op ≤ 0x27 ∨ 0x40 ≤ op) ∧ op ≠ 0xED ∧ op ≠ 0xDD ∧ op ≠ 0xFD) →
    ((disassemble_instruction [op, 0x00, 0x00] 0 0 []).bind
      (fun r => r.inst)).map (fun t => hasDBStart t) = some false := by
  decide

theorem c4_base_table_coverage_witness :
    ((disassemble_instruction [0x00, 0x00, 0x00] 0 0 []).bind
      (fun r => r.inst)).map (fun t => hasDBStart t) = some false :=
  c4_base_table_coverage 0x00 (by decide) (by decide)

/-- Claim C5 (counterexample): on `[0x01]` (`LD BC,nn` with the word
operand missing) decoding raises instead of truncating to a raw data
byte, so no decoded program exists whose lengths could sum to the image
length. -/
theorem c5_truncated_word_crash :
    disassembleRecords [0x01] 0 = none := by decide

/-- Claim C5 (amended): whenever decoding completes without raising, the
per-instruction `size` fields sum to exactly the image length — no gaps,
no overlaps, full coverage. -/
theorem c5_sum_sizes (data : List Nat) (base : Int) (rs : List Line)
    (h : disassembleRecords data base = some rs) :
    (rs.map Line.size).sum = data.length := by
  have hs := disassembleLoop_sum data base (data.length + 1) 0 [] rs h
  simpa using hs

theorem c5_sum_sizes_witness :
    (([⟨0, "", "NOP", 1⟩, ⟨1, "", "LD A,(BC)", 1⟩] : List Line).map
      Line.size).sum = ([0x00, 0x0A] : List Nat).length :=
  c5_sum_sizes [0x00, 0x0A] 0
    [⟨0, "", "NOP", 1⟩, ⟨1, "", "LD A,(BC)", 1⟩] (by decide)

/-- Claim C6 (counterexample): `[0x3E, 0x05, 0xC3, 0x00, 0x00]` with
base 0 does not decode to `LD A,&05` followed by `JP L0000` with a label
line at address 0. -/
theorem c6_not_claimed_output :
    disassembleLines [0x3E, 0x05, 0xC3, 0x00, 0x00] 0 ≠
      some [ "ORG &0000\n", "L0000:\nLD A,&05", "JP L0000"] := by decide

/-- Claim C6 (amended): `0x3E` is unmodelled, so the image decodes as
`DB &3E` (1 byte), `DEC B` (1 byte), `JP L0000` (3 bytes), and no label
line appears anywhere: address 0 is the `JP`'s resolved target but its
line was already emitted when the backward-referencing `JP` registered
it. -/
theorem c6_actual_output :
    disassembleLines [0x3E, 0x05, 0xC3, 0x00, 0x00] 0 =
      some [ "ORG &0000\n", "DB &3E", "DEC B", "JP L0000"] := by decide

/-- Claim C7 (counterexample): `[0xED, 0x00]` does not decode to a
1-byte raw instruction for `0xED` followed by `NOP`. -/
theorem c7_not_split_raw :
    disassembleLines [0xED, 0x00] 0 ≠
      some [ "ORG &0000\n", "DB &ED", "NOP"] := by decide

/-- Claim C7 (amended): an unmatched opcode after a prefix byte yields a
single two-byte raw-data pseudo-instruction carrying the prefix and the
byte (line 437), so `[0xED, 0x00]` decodes to the one instruction
`DB &ED,&00` with both bytes consumed. -/
theorem c7_actual_output :
    disassembleLines [0xED, 0x00] 0 =
      some [ "ORG &0000\n", "DB &ED,&00"] := by decide

/-- Claim C8 (confirmed): when the decoder reaches a final image byte
that is one of the four prefix bytes, the follow-up read returns `None`
and the handler emits exactly one 1-byte raw-data instruction for the
prefix byte itself, raising nothing (lines 362-364, 387-389, 441-443,
466-468). -/
theorem c8_lone_trailing_byte (data : List Nat) (base : Int) (pos : Nat)
    (labels : List Int) (p : Nat) (hb : read_byte data pos = some p)
    (hp : p = 0xCB ∨ p = 0xED ∨ p = 0xDD ∨ p = 0xFD)
    (hend : pos + 1 = data.length) :
    disassemble_instruction data base pos labels =
      some ⟨some ( "DB &" ++ pyHexNat 2 p), 1, pos + 1, labels⟩ := by
  have hlen := read_byte_lt hb
  have hval : data.getD pos 0 = p := (read_byte_eq_some.mp hb).2
  have hnone : read_byte data (pos + 1) = none := by
    unfold read_byte
    rw [if_neg (by omega)]
  unfold disassemble_instruction
  rw [if_pos hlen, hval]
  rcases hp with rfl | rfl | rfl | rfl
  · show disassemble_cb_prefix data pos labels =
      some ⟨some ( "DB &" ++ pyHexNat 2 (0xCB : Nat)), 1, pos + 1, labels⟩
    unfold disassemble_cb_prefix
    rw [hnone, (by decide : ( "DB &" ++ pyHexNat 2 (0xCB : Nat)) = "DB &CB")]
    rfl
  · show disassemble_ed_prefix data pos labels =
      some ⟨some ( "DB &" ++ pyHexNat 2 (0xED : Nat)), 1, pos + 1, labels⟩
    unfold disassemble_ed_prefix
    rw [hnone, (by decide : ( "DB &" ++ pyHexNat 2 (0xED : Nat)) = "DB &ED")]
    rfl
  · show disassemble_dd_prefix data pos labels =
      some ⟨some ( "DB &" ++ pyHexNat 2 (0xDD : Nat)), 1, pos + 1, labels⟩
    unfold disassemble_dd_prefix
    rw [hnone, (by decide : ( "DB &" ++ pyHexNat 2 (0xDD : Nat)) = "DB &DD")]
    rfl
  · show disassemble_fd_prefix data pos labels =
      some ⟨some ( "DB &" ++ pyHexNat 2 (0xFD : Nat)), 1, pos + 1, labels⟩
    unfold disassemble_fd_prefix
    rw [hnone, (by decide : ( "DB &" ++ pyHexNat 2 (0xFD : Nat)) = "DB &FD")]
    rfl

theorem c8_lone_trailing_byte_witness :
    disassemble_instruction [0xCB] 0 0 [] =
      some ⟨some ( "DB &" ++ pyHexNat 2 0xCB), 1, 0 + 1, []⟩ :=
  c8_lone_trailing_byte [0xCB] 0 0 [] 0xCB (by decide) (Or.inl rfl) rfl

/-- Claim C9 (counterexample): a relative branch near the bottom of the
address space registers a negative target, and Python renders
`f"L{-126:04X}"` as `L-07E` — a name that is not a fixed prefix followed
by fixed-width hexadecimal digits (`-` is no hex digit). -/
theorem c9_negative_target_name :
    disassembleLines [0x10, 0x80] 0 =
        some [ "ORG &0000\n", "DJNZ L-07E"] ∧
      format_addr (-126) = "L-07E" ∧ isHexDigit '-' = false := by
  refine ⟨by decide, by decide, by decide⟩

/-- Claim C9 (amended): for target addresses in `0..0xFFFF` the label
name is the fixed prefix `L` followed by exactly four uppercase
hexadecimal digits, a pure function of the address value. -/
theorem c9_label_shape : ∀ a : Int, 0 ≤ a → a < 65536 →
    ∃ ds : List Char, format_addr a = ⟨'L' :: ds⟩ ∧ ds.length = 4 ∧
      ∀ c ∈ ds, isHexDigit c = true := by
  intro a h0 hlt
  refine ⟨padZeroes 4 (natHexDigits a.toNat), ?_, ?_, ?_⟩
  · unfold format_addr pyHexInt
    rw [if_neg (by omega : ¬ a < 0)]
    rfl
  · have hl : (natHexDigits a.toNat).length ≤ 4 :=
      natHexDigits_len (by omega)
    unfold padZeroes
    rw [List.length_append, List.length_replicate]
    omega
  · intro c hc
    unfold padZeroes at hc
    rcases List.mem_append.mp hc with hrep | hdig
    · rw [List.eq_of_mem_replicate hrep]
      decide
    · exact natHexDigits_hex _ c hdig

theorem c9_label_shape_witness :
    ∃ ds : List Char, format_addr 0x1234 = ⟨'L' :: ds⟩ ∧ ds.length = 4 ∧
      ∀ c ∈ ds, isHexDigit c = true :=
  c9_label_shape 0x1234 (by decide) (by decide)

/-- Claim C10 (confirmed): for `0x40 ≤ b ≤ 0x7F`, `b ≠ 0x76`, the code
emits the 1-byte instruction `LD REG_8[b & 7],REG_8[(b >> 3) & 7]` —
destination from the low three bits and source from bits 5-3, exactly as
lines 180-185 compute (the reverse of real Z80 encoding, but faithful to
the code) — and `0x76` emits `HALT`. -/
theorem c10_ld_rr_operand_order :
    (∀ b : Nat, b < 0x80 → (0x40 ≤ b ∧ b ≠ 0x76) →
      (disassemble_instruction [b] 0 0 []).map (fun r => (r.inst, r.size)) =
        some (some ( "LD " ++ REG_8.getD (b &&& 0x07) "" ++ "," ++
          REG_8.getD ((b >>> 3) &&& 0x07) ""), 1)) ∧
    (disassemble_instruction [0x76] 0 0 []).map (fun r => (r.inst, r.size)) =
      some (some "HALT", 1) := by
  constructor
  · decide
  · decide

theorem c10_ld_rr_operand_order_witness :
    (disassemble_instruction [0x41] 0 0 []).map (fun r => (r.inst, r.size)) =
      some (some ( "LD " ++ REG_8.getD (0x41 &&& 0x07) "" ++ "," ++
        REG_8.getD ((0x41 >>> 3) &&& 0x07) ""), 1) :=
  c10_ld_rr_operand_order.1 0x41 (by decide) (by decide)
